import Mathlib

/-!
Verification of the pfam client library's response-transformation pipeline.

The Python source is embedded shallowly:
* Python scalar values that flow through the XML normalizer (`None`, `str`,
  `float`, and opaque other objects) become the inductive type `PyValue`.
* Python `float(...)` string conversion is modelled by `parseFloat`, an
  executable parser for CPython's float-literal grammar on whitespace-free
  input (optional sign, digit groups with underscores, optional fraction and
  exponent, case-insensitive `inf`/`infinity`/`nan`).  The numeric value of a
  finite literal is modelled exactly as a rational number: the claims under
  study only compare values produced from literals that denote the same
  rational, so no IEEE rounding model is needed.
* `xml.etree.ElementTree` elements become the inductive `XMLElem`
  (tag, attribute list, text, tail, children); in-place mutation of the tree
  by `xml_process_tree` becomes a pure tree transformation.
* Python exceptions become `Except PyErr`; the HTTP transport is an external
  collaborator, so `request` is modelled from the already-parsed response
  (status code plus parsed XML root).
-/

/-- An exact rational in lowest terms with positive denominator, used as the
value of a finite float.  A hand-rolled type (rather than Mathlib's `ℚ`) so
that every operation reduces inside the kernel. -/
structure PyRat where
  num : ℤ
  den : ℕ
deriving DecidableEq

/-- Euclid's algorithm with explicit fuel, so that it is structurally
recursive; `fuel = m + 1` always suffices because the first argument
strictly decreases. -/
def gcdFuel : Nat → Nat → Nat → Nat
  | 0, m, n => m + n
  | fuel + 1, m, n => if m = 0 then n else gcdFuel fuel (n % m) m

/-- Greatest common divisor via `gcdFuel`. -/
def pyGcd (m n : Nat) : Nat := gcdFuel (m + 1) m n

/-- The rational `num / den` in lowest terms (for `den ≠ 0`). -/
def ratNorm (num den : ℤ) : PyRat :=
  let n := if den < 0 then -num else num
  let d := den.natAbs
  let g := pyGcd n.natAbs d
  if g = 0 then ⟨0, 1⟩ else ⟨n / (g : ℤ), d / g⟩

/-- Model of a CPython `float` object as produced by `float(str)`:
either a finite value (modelled exactly as a rational), an infinity, or NaN. -/
inductive PyFloat where
  | finite (q : PyRat)
  | inf
  | neginf
  | nan
deriving DecidableEq

/-- Model of the Python scalar values flowing through `xml_process_value`:
`None`, a `str`, a `float`, or any other (opaque) Python object. -/
inductive PyValue where
  | vnone
  | vstr (s : String)
  | vfloat (f : PyFloat)
  | vobj (id : Nat)
deriving DecidableEq

open PyValue

/-- The whitespace characters stripped by Python's `str.strip()`
(ASCII subset, which covers all documents handled by this library). -/
def isPySpace (c : Char) : Bool :=
  c == ' ' || c == '\t' || c == '\n' || c == '\r' || c == '\x0b' || c == '\x0c'

/-- Drop matching characters from the right end of a character list. -/
def rtrimChars (p : Char → Bool) (l : List Char) : List Char :=
  (l.reverse.dropWhile p).reverse

/-- Model of Python `str.strip()` on the character list level. -/
def pyStripList (l : List Char) : List Char :=
  rtrimChars isPySpace (l.dropWhile isPySpace)

/-- Model of Python `str.strip()`. -/
def pyStrip (s : String) : String :=
  String.mk (pyStripList s.toList)

/-- Model of Python `str.rstrip('.')`: drop every trailing `'.'`. -/
def pyRstripDot (s : String) : String :=
  String.mk (rtrimChars (fun c => c == '.') s.toList)

/-- ASCII decimal digit test used by the float-literal grammar. -/
def isPyDigit (c : Char) : Bool := '0' ≤ c && c ≤ '9'

/-- Consume a run of digits in which single underscores may separate digits
(CPython numeric-literal rule); returns the digits collected (underscores
dropped) and the unconsumed remainder. -/
def digitsGo (acc : List Char) : List Char → List Char × List Char
  | [] => (acc, [])
  | c :: rest =>
    if isPyDigit c then digitsGo (acc ++ [c]) rest
    else if c = '_' then
      match rest with
      | d :: rest2 => if isPyDigit d then digitsGo (acc ++ [d]) rest2 else (acc, c :: rest)
      | [] => (acc, [c])
    else (acc, c :: rest)

/-- Consume a digit group that must start with a digit. -/
def takeDigitGroup (l : List Char) : Option (List Char × List Char) :=
  match l with
  | c :: rest => if isPyDigit c then some (digitsGo [c] rest) else Option.none
  | [] => Option.none

/-- Consume an optional digit group. -/
def optDigitGroup (l : List Char) : List Char × List Char :=
  match takeDigitGroup l with
  | some r => r
  | none => ([], l)

/-- Numeric value of a digit list. -/
def natOfDigits (ds : List Char) : Nat :=
  ds.foldl (fun n c => 10 * n + (c.toNat - 48)) 0

/-- Consume an optional leading sign; `true` means negative. -/
def parseSign : List Char → Bool × List Char
  | '+' :: r => (false, r)
  | '-' :: r => (true, r)
  | l => (false, l)

/-- Model of CPython `float(s)` for a string without surrounding whitespace
(`xml_process_value` strips its argument before converting).  Returns `none`
exactly when CPython raises `ValueError`.  Finite values are represented
exactly as rationals. -/
def parseFloat (s : String) : Option PyFloat :=
  let signed := parseSign s.toList
  let neg := signed.1
  let cs := signed.2.map Char.toLower
  if cs = ['i', 'n', 'f'] ∨ cs = ['i', 'n', 'f', 'i', 'n', 'i', 't', 'y'] then
    some (if neg then PyFloat.neginf else PyFloat.inf)
  else if cs = ['n', 'a', 'n'] then
    some PyFloat.nan
  else
    let ip := optDigitGroup cs
    let fp : List Char × List Char :=
      match ip.2 with
      | '.' :: r => optDigitGroup r
      | _ => ([], ip.2)
    if ip.1 ++ fp.1 = [] then Option.none
    else
      let ex : Option (Bool × List Char × List Char) :=
        match fp.2 with
        | 'e' :: r =>
          let es := parseSign r
          match takeDigitGroup es.2 with
          | some (ds, r2) => some (es.1, ds, r2)
          | none => Option.none
        | other => some (false, [], other)
      match ex with
      | none => Option.none
      | some (eneg, eds, rest) =>
        if rest = [] then
          let m : ℤ := (natOfDigits (ip.1 ++ fp.1) : ℤ)
          let m := if neg then -m else m
          let expo : ℤ :=
            (if eneg then -(natOfDigits eds : ℤ) else (natOfDigits eds : ℤ)) - (fp.1.length : ℤ)
          some (PyFloat.finite
            (if 0 ≤ expo then ratNorm (m * (10 : ℤ) ^ expo.toNat) 1
             else ratNorm m ((10 : ℤ) ^ (-expo).toNat)))
        else Option.none

/-- Embedding of `xml_process_value` (src/pfam/__init__.py:45-70):
`None` maps to `None`; a non-string is returned unchanged; a string is
stripped, the empty result becomes `None`, a float-parsable result becomes a
float, and otherwise the stripped string is returned. -/
def xml_process_value : PyValue → PyValue
  | .vnone => .vnone
  | .vstr s =>
    let value := pyStrip s
    if value = "" then .vnone
    else
      match parseFloat value with
      | some f => .vfloat f
      | none => .vstr value
  | v => v

/-- Embedding of an `xml.etree.ElementTree` element: tag, ordered attribute
dictionary, text, tail and child list.  Attribute values and text start as
strings (or `None`) when produced by the XML parser and may become floats or
`None` after normalization, hence `PyValue`. -/
inductive XMLElem where
  | mk (tag : String) (attrib : List (String × PyValue)) (text : PyValue) (tail : PyValue)
       (children : List XMLElem)

/-- The element's tag. -/
def XMLElem.tag : XMLElem → String
  | .mk t _ _ _ _ => t

/-- The element's attribute dictionary. -/
def XMLElem.attrib : XMLElem → List (String × PyValue)
  | .mk _ a _ _ _ => a

/-- The element's text content. -/
def XMLElem.text : XMLElem → PyValue
  | .mk _ _ x _ _ => x

/-- The element's tail text. -/
def XMLElem.tail : XMLElem → PyValue
  | .mk _ _ _ tl _ => tl

/-- The element's child elements. -/
def XMLElem.children : XMLElem → List XMLElem
  | .mk _ _ _ _ cs => cs

/-- Model of `element.get(name)`: the attribute's value, or Python `None`
when the attribute is absent. -/
def attrGet (e : XMLElem) (name : String) : PyValue :=
  match e.attrib.lookup name with
  | some v => v
  | none => .vnone

/-- Model of `element.find(tag)`: the first direct child with the given tag. -/
def findChild (e : XMLElem) (tag : String) : Option XMLElem :=
  e.children.find? (fun c => c.tag == tag)

/-- Normalization of one attribute dictionary: every value is replaced by
`xml_process_value value` (the `for name in el.attrib` loop). -/
def processAttrs (a : List (String × PyValue)) : List (String × PyValue) :=
  a.map (fun pr => (pr.1, xml_process_value pr.2))

/-- Embedding of `xml_process_tree` (src/pfam/__init__.py:73-83): every
element of the tree, the root included, has its text and all its attribute
values replaced by their `xml_process_value` image.  The Python code mutates
the tree in place while iterating `element.iter()`; the embedding returns the
transformed tree.  (Tail text is not touched by the source loop.) -/
def xml_process_tree : XMLElem → XMLElem
  | .mk t a x tl cs =>
    XMLElem.mk t (processAttrs a) (xml_process_value x) tl
      (cs.attach.map (fun c => xml_process_tree c.1))
decreasing_by
  have h := List.sizeOf_lt_of_mem c.2
  simp only [XMLElem.mk.sizeOf_spec]
  omega

/-- The Python exceptions the embedded code can raise.  `transportError`
stands for `requests`' `raise_for_status` failure, `remoteError` for the
`raise Exception(root.text)` on an `<error>` document (the spec's
`RemoteError`), and the remaining constructors for the builtin exception
kinds raised by the mapping layer. -/
inductive PyErr where
  | transportError (status : Nat)
  | remoteError (message : PyValue)
  | attributeError
  | typeError
  | valueError
  | indexError
deriving DecidableEq

/-- Embedding of the XML path of `request` (src/pfam/__init__.py:7-38) from
the point where the response is in hand: the HTTP transport and the XML
parser are external collaborators, so the model takes the HTTP status code
and the parsed root element.  `raise_for_status` fails on a 4xx/5xx status;
then a root tagged `error` raises with the element's raw text (before any
normalization); otherwise the whole tree is normalized and returned. -/
def request_xml (status : Nat) (root : XMLElem) : Except PyErr XMLElem :=
  if 400 ≤ status ∧ status ≤ 599 then Except.error (PyErr.transportError status)
  else if root.tag = "error" then Except.error (PyErr.remoteError root.text)
  else Except.ok (xml_process_tree root)

/-- Model of a Python `datetime` restricted to the date fields produced by
`datetime.strptime(_, '%Y-%m-%d')`. -/
structure PyDate where
  year : Nat
  month : Nat
  day : Nat
deriving DecidableEq

/-- Model of Python `s.split(sep)` for a one-character separator, on
character lists: split at every occurrence, keeping empty pieces
(`"".split(sep) == [""]`). -/
def splitCharAux (sep : Char) (acc : List Char) : List Char → List String
  | [] => [String.mk acc.reverse]
  | c :: rest =>
    if c = sep then String.mk acc.reverse :: splitCharAux sep [] rest
    else splitCharAux sep (c :: acc) rest

/-- Model of Python `s.split(sep)` for a one-character separator. -/
def pySplitChar (sep : Char) (s : String) : List String :=
  splitCharAux sep [] s.toList

/-- Model of Python `s.split('; ')` (the separator used by the taxonomy
mapper), on character lists. -/
def splitSemiSpaceAux (acc : List Char) : List Char → List String
  | [] => [String.mk acc.reverse]
  | ';' :: ' ' :: rest => String.mk acc.reverse :: splitSemiSpaceAux [] rest
  | c :: rest => splitSemiSpaceAux (c :: acc) rest

/-- Model of Python `s.split('; ')`. -/
def pySplitSemiSpace (s : String) : List String :=
  splitSemiSpaceAux [] s.toList

/-- Model of Python `s.splitlines()` for the line breaks `\n`, `\r` and
`\r\n`: splits at each break and produces no entry for a trailing break
(`"".splitlines() == []`). -/
def splitlinesAux (acc : List Char) : List Char → List String
  | [] => if acc.isEmpty then [] else [String.mk acc.reverse]
  | '\r' :: '\n' :: rest => String.mk acc.reverse :: splitlinesAux [] rest
  | '\r' :: rest => String.mk acc.reverse :: splitlinesAux [] rest
  | '\n' :: rest => String.mk acc.reverse :: splitlinesAux [] rest
  | c :: rest => splitlinesAux (c :: acc) rest

/-- Model of Python `s.splitlines()`. -/
def pySplitlines (s : String) : List String :=
  splitlinesAux [] s.toList

/-- All characters are ASCII decimal digits. -/
def allDigits (l : List Char) : Bool := l.all isPyDigit

/-- Model of `datetime.strptime(s, '%Y-%m-%d')` for the zero-padded dates the
server emits: four digit year, two digit month and day, coarse range checks.
Returns `none` where CPython raises `ValueError`. -/
def parseYMD (s : String) : Option PyDate :=
  match pySplitChar '-' s with
  | [ys, ms, ds] =>
    if allDigits ys.toList ∧ ys.length = 4 ∧ allDigits ms.toList ∧ ms.length = 2 ∧
        allDigits ds.toList ∧ ds.length = 2 then
      let m := natOfDigits ms.toList
      let d := natOfDigits ds.toList
      if 1 ≤ m ∧ m ≤ 12 ∧ 1 ≤ d ∧ d ≤ 31 then some ⟨natOfDigits ys.toList, m, d⟩
      else Option.none
    else Option.none
  | _ => Option.none

/-- `datetime.strptime(value, '%Y-%m-%d')` as called on an attribute value:
a non-string raises `TypeError`, an unparsable string raises `ValueError`. -/
def strptimeYMD (v : PyValue) : Except PyErr PyDate :=
  match v with
  | .vstr s =>
    match parseYMD s with
    | some d => Except.ok d
    | none => Except.error PyErr.valueError
  | _ => Except.error PyErr.typeError

/-- Python dictionary / object attribute table with insertion order. -/
abbrev PyDict : Type := List (String × PyValue)

/-- Assignment `d[k] = v` (also `setattr`): overwrite in place, or append. -/
def assocSet {α : Type} : List (String × α) → String → α → List (String × α)
  | [], k, v => [(k, v)]
  | (k', v') :: rest, k, v =>
    if k' = k then (k, v) :: rest else (k', v') :: assocSet rest k v

/-- `setattr` on the modelled attribute table. -/
def dictSet (d : PyDict) (k : String) (v : PyValue) : PyDict := assocSet d k v

/-- Dictionary lookup returning `none` for a missing key. -/
def dictGet (d : PyDict) (k : String) : Option PyValue := d.lookup k

/-- Attribute read with the Python default `None` kept by the mappers. -/
def dictGetD (d : PyDict) (k : String) : PyValue := (d.lookup k).getD PyValue.vnone

/-- Embedding of `PfamEntry` (src/pfam/__init__.py:85-104), fields in source
member order.  All four members hold whatever Python value was passed
(normalized attribute values or raw strings), hence `PyValue`. -/
structure PfamEntry where
  id : PyValue
  accession : PyValue
  description : PyValue
  type : PyValue
deriving DecidableEq

/-- The network round trip that a fetch operation would perform, identified
by endpoint kind and accession.  The HTTP layer is external, so the derived
fetch helpers are embedded as the request they issue; `Option.none` models
"no request issued, Python returns None". -/
inductive FetchAction where
  | fetchFamily (accession : PyValue)
  | fetchClan (accession : PyValue)
  | fetchProtein (accession : PyValue)
deriving DecidableEq

/-- Embedding of `PfamEntry.fetch` (src/pfam/__init__.py:95-104): dispatch on
the entry's type tag; an unrecognized tag falls off the end of the `if`
chain, returning `None` without any request. -/
def PfamEntry.fetch (e : PfamEntry) : Option FetchAction :=
  if e.type = vstr "Pfam-A" then some (FetchAction.fetchFamily e.accession)
  else if e.type = vstr "Clan" then some (FetchAction.fetchClan e.accession)
  else if e.type = vstr "sequence" then some (FetchAction.fetchProtein e.accession)
  else Option.none

/-- Embedding of `PfarmGOTerm` (src/pfam/__init__.py:106-113); the source
class name's typo is kept. -/
structure PfarmGOTerm where
  id : PyValue
  category : PyValue
  text : PyValue
deriving DecidableEq

/-- Embedding of `PfamCurationDetails` (src/pfam/__init__.py:116-141).
The typed members initialized to `None` and every generically `setattr`-ed
child live in the attribute table `attrs` (Python stores them all in the
object's `__dict__`); the two `num_seqs` fields are `Option.none` while the
attribute does not exist yet. -/
structure PfamCurationDetails where
  attrs : PyDict
  num_seqs_seed : Option PyValue
  num_seqs_full : Option PyValue
deriving DecidableEq

/-- The typed members `PfamCurationDetails.__init__` sets to `None` before
processing children, in source order. -/
def curationInitAttrs : PyDict :=
  [("status", vnone), ("seed_source", vnone), ("num_archs", vnone), ("num_species", vnone),
   ("num_structures", vnone), ("percentage_identity", vnone), ("av_length", vnone),
   ("av_coverage", vnone), ("type", vnone)]

/-- `el.find(tag).text`: reading `.text` off a failed `find` raises
`AttributeError` on the `None` result. -/
def findText (el : XMLElem) (tag : String) : Except PyErr PyValue :=
  match findChild el tag with
  | some c => Except.ok c.text
  | none => Except.error PyErr.attributeError

/-- Embedding of `PfamCurationDetails.__init__`: a `num_seqs` child yields
the text of its `seed` and `full` children; any other child is `setattr`-ed
under its tag. -/
def mkPfamCurationDetails (element : XMLElem) : Except PyErr PfamCurationDetails :=
  element.children.foldlM
    (fun cd el =>
      if el.tag = "num_seqs" then do
        let seed ← findText el "seed"
        let full ← findText el "full"
        pure { cd with num_seqs_seed := some seed, num_seqs_full := some full }
      else
        pure { cd with attrs := dictSet cd.attrs el.tag el.text })
    ⟨curationInitAttrs, Option.none, Option.none⟩

/-- Embedding of `PfamCutoff` (src/pfam/__init__.py:144-150). -/
structure PfamCutoff where
  sequence : PyValue
  domain : PyValue
deriving DecidableEq

/-- Embedding of `PfamHmmDetails` (src/pfam/__init__.py:153-177): three
attributes read off the node, an attribute table seeded with
`build_commands`/`search_commands`, and the cutoff dictionary. -/
structure PfamHmmDetails where
  hmmer_version : PyValue
  model_version : PyValue
  model_length : PyValue
  attrs : PyDict
  cutoffs : List (String × PfamCutoff)
deriving DecidableEq

/-- Embedding of `PfamHmmDetails.__init__`. -/
def mkPfamHmmDetails (element : XMLElem) : Except PyErr PfamHmmDetails :=
  element.children.foldlM
    (fun h el =>
      if el.tag = "cutoffs" then do
        let cs ← el.children.foldlM
          (fun cs cutoff => do
            let s ← findText cutoff "sequence"
            let d ← findText cutoff "domain"
            pure (assocSet cs cutoff.tag (PfamCutoff.mk s d)))
          h.cutoffs
        pure { h with cutoffs := cs }
      else
        pure { h with attrs := dictSet h.attrs el.tag el.text })
    ⟨attrGet element "hmmer_version", attrGet element "model_version",
     attrGet element "model_length",
     [("build_commands", vnone), ("search_commands", vnone)], []⟩

/-- Embedding of `PfamFamily` (src/pfam/__init__.py:180-225).  Scalar
members (`description`, `comment`, and any generically assigned tag) live in
`attrs`; structured members are `Option`s that are `none` while the
attribute does not exist. -/
structure PfamFamily where
  pfam_release_version : PyValue
  pfam_release_date : PyDate
  attrs : PyDict
  curation_details : Option PfamCurationDetails
  hmm_details : Option PfamHmmDetails
  clan : Option PfamEntry
  go_terms : Option (List PfarmGOTerm)
  entry : PfamEntry
deriving DecidableEq

/-- The GO-term list built from one `go_terms` child: for each category
child, for each term child, a `PfarmGOTerm` of the term's `go_id`, the
category's `name`, and the term's text. -/
def goTermsOf (el : XMLElem) : List PfarmGOTerm :=
  (el.children.map (fun cat =>
    cat.children.map (fun term =>
      PfarmGOTerm.mk (attrGet term "go_id") (attrGet cat "name") term.text))).flatten

/-- Embedding of `PfamFamily.__init__`: dispatch on the child tag, then build
the family's own `Entry` from the entity node's attributes and the collected
description. -/
def mkPfamFamily (release_version : PyValue) (release_date : PyDate) (entry : XMLElem) :
    Except PyErr PfamFamily := do
  let init : PfamFamily :=
    ⟨release_version, release_date, [("description", vnone), ("comment", vnone)],
     Option.none, Option.none, Option.none, Option.none, ⟨vnone, vnone, vnone, vnone⟩⟩
  let fam ← entry.children.foldlM
    (fun fam el =>
      if el.tag = "curation_details" then do
        pure { fam with curation_details := some (← mkPfamCurationDetails el) }
      else if el.tag = "hmm_details" then do
        pure { fam with hmm_details := some (← mkPfamHmmDetails el) }
      else if el.tag = "clan_membership" then
        pure { fam with
          clan := some ⟨attrGet el "clan_id", attrGet el "clan_acc", vnone, vstr "Clan"⟩ }
      else if el.tag = "go_terms" then
        pure { fam with go_terms := some (goTermsOf el) }
      else
        pure { fam with attrs := dictSet fam.attrs el.tag el.text })
    init
  pure { fam with
    entry := ⟨attrGet entry "id", attrGet entry "accession",
              dictGetD fam.attrs "description", attrGet entry "entry_type"⟩ }

/-- `root[0]`: the response root's first child; `IndexError` when absent. -/
def firstChild (e : XMLElem) : Except PyErr XMLElem :=
  match e.children with
  | [] => Except.error PyErr.indexError
  | c :: _ => Except.ok c

/-- Embedding of `family` (src/pfam/__init__.py:369-379) from the parsed
response: run `request`, read the (already normalized) `release` and
`release_date` attributes off the returned root, and map the root's first
child. -/
def family (status : Nat) (parsedRoot : XMLElem) : Except PyErr PfamFamily := do
  let root ← request_xml status parsedRoot
  let release_version := attrGet root "release"
  let release_date ← strptimeYMD (attrGet root "release_date")
  let e ← firstChild root
  mkPfamFamily release_version release_date e

/-- Embedding of `PfamLocation` (src/pfam/__init__.py:248-274): ten members
read off the node's attributes, five initialized to `None`, then every child
`setattr`-ed under its tag — all living in one attribute table in source
order. -/
structure PfamLocation where
  attrs : PyDict
deriving DecidableEq

/-- Embedding of `PfamLocation.__init__`. -/
def mkPfamLocation (element : XMLElem) : PfamLocation :=
  ⟨element.children.foldl (fun d el => dictSet d el.tag el.text)
    [("start", attrGet element "start"), ("end", attrGet element "end"),
     ("ali_start", attrGet element "ali_start"), ("ali_end", attrGet element "ali_end"),
     ("hmm_start", attrGet element "hmm_start"), ("hmm_end", attrGet element "hmm_end"),
     ("bitscore", attrGet element "bitscore"), ("evalue", attrGet element "evalue"),
     ("evidence", attrGet element "evidence"), ("significant", attrGet element "significant"),
     ("hmm", vnone), ("match_string", vnone), ("pp", vnone), ("seq", vnone), ("raw", vnone)]⟩

/-- Embedding of `PfamMatch` (src/pfam/__init__.py:227-244): an entry built
from the match node's `type`/`id`/`accession` attributes (no description) and
one `PfamLocation` per child. -/
structure PfamMatch where
  entry : PfamEntry
  locations : List PfamLocation
deriving DecidableEq

/-- Embedding of `PfamMatch.__init__`. -/
def mkPfamMatch (element : XMLElem) : PfamMatch :=
  ⟨⟨attrGet element "id", attrGet element "accession", vnone, attrGet element "type"⟩,
   element.children.map mkPfamLocation⟩

/-- Embedding of `PfamMatch.fetch_family`: delegate to the entry's fetch. -/
def PfamMatch.fetch_family (m : PfamMatch) : Option FetchAction :=
  m.entry.fetch

/-- Embedding of `PfamProtein` (src/pfam/__init__.py:276-321). -/
structure PfamProtein where
  pfam_release_version : PyValue
  pfam_release_date : PyDate
  db_name : PyValue
  db_release_version : PyValue
  attrs : PyDict
  taxonomy_id : PyValue
  species_name : PyValue
  taxonomy : Option (List String)
  sequence : PyValue
  sequence_version : Option PyValue
  «matches» : List PfamMatch
  entry : PfamEntry
deriving DecidableEq

/-- The taxonomy lineage computed on src/pfam/__init__.py:306:
`el.text.rstrip('.').split('; ')` — every trailing `'.'` stripped, then split
on `'; '`. -/
def taxonomyLineage (s : String) : List String :=
  pySplitSemiSpace (pyRstripDot s)

/-- Embedding of `PfamProtein.__init__`: dispatch on the child tag
(`taxonomy`, `sequence`, `matches`, generic), then build the protein's own
`Entry`.  The taxonomy branch calls `.rstrip` on the normalized text, which
raises `AttributeError` unless that text is a string. -/
def mkPfamProtein (release_version : PyValue) (release_date : PyDate) (entry : XMLElem) :
    Except PyErr PfamProtein := do
  let init : PfamProtein :=
    ⟨release_version, release_date, attrGet entry "db", attrGet entry "db_release",
     [("description", vnone), ("comment", vnone)], vnone, vnone, Option.none, vnone,
     Option.none, [], ⟨vnone, vnone, vnone, vnone⟩⟩
  let p ← entry.children.foldlM
    (fun p el =>
      if el.tag = "taxonomy" then
        match el.text with
        | vstr s =>
          pure { p with
            taxonomy_id := attrGet el "tax_id",
            species_name := attrGet el "species_name",
            taxonomy := some (taxonomyLineage s) }
        | _ => Except.error PyErr.attributeError
      else if el.tag = "sequence" then
        pure { p with sequence_version := some (attrGet el "version"), sequence := el.text }
      else if el.tag = "matches" then
        pure { p with «matches» := p.«matches» ++ el.children.map mkPfamMatch }
      else
        pure { p with attrs := dictSet p.attrs el.tag el.text })
    init
  pure { p with
    entry := ⟨attrGet entry "id", attrGet entry "accession",
              dictGetD p.attrs "description", attrGet entry "entry_type"⟩ }

/-- Embedding of `PfamProtein.fetch_family` (src/pfam/__init__.py:323-327):
with at least one match, delegate to the first match; otherwise the function
falls through and returns `None` without any request. -/
def PfamProtein.fetch_family (p : PfamProtein) : Option FetchAction :=
  match p.«matches» with
  | [] => Option.none
  | m :: _ => m.fetch_family

/-- Embedding of `protein` (src/pfam/__init__.py:433-443) from the parsed
response, mirroring `family`. -/
def protein (status : Nat) (parsedRoot : XMLElem) : Except PyErr PfamProtein := do
  let root ← request_xml status parsedRoot
  let release_version := attrGet root "release"
  let release_date ← strptimeYMD (attrGet root "release_date")
  let e ← firstChild root
  mkPfamProtein release_version release_date e

/-- Embedding of `families` (src/pfam/__init__.py:393-411) from the response
body (the request is made with `output: text` and returns the raw body):
split into lines, split each line on tabs, and keep exactly the three-field
lines as `Pfam-A` entries with `PfamEntry('Pfam-A', fields[1], fields[0],
fields[2])`. -/
def families (text : String) : List PfamEntry :=
  (pySplitlines text).foldl
    (fun output line =>
      match pySplitChar '\t' line with
      | [f0, f1, f2] => output ++ [⟨vstr f1, vstr f0, vstr f2, vstr "Pfam-A"⟩]
      | _ => output)
    []

/-- Embedding of `proteins` (src/pfam/__init__.py:446-470) from the response
body: for every line of the alignment text, the part of the line before the
first `'/'` (`line.split('/')[0]`). -/
def proteins (text : String) : List String :=
  (pySplitlines text).foldl
    (fun output line => output ++ [(pySplitChar '/' line).headD ""])
    []

/-- Embedding of the parameter handling of `request`
(src/pfam/__init__.py:7-10): `params.setdefault('output', 'xml')` on the
caller's dictionary — insert only when the key is absent. -/
def requestParams (params : PyDict) : PyDict :=
  if (dictGet params "output").isSome then params
  else params ++ [("output", vstr "xml")]

/-- The module-level default dictionary `params: dict = {}`: CPython
evaluates the default once at function definition time, so every call made
without a `params` argument shares this one dictionary.  Its mutation across
calls is modelled by explicit state passing through `requestParams`. -/
def requestDefaultParams : PyDict := []

/-- Modelled from the spec: the name taken from one alignment line — "the
substring before the first `/`". -/
def beforeFirstSlash (line : String) : String :=
  String.mk (line.toList.takeWhile (fun c => !(c == '/')))

/-- Modelled from the spec: the `list_families` per-line rule — "tab-separated
lines of exactly 3 fields (accession, id, description) into
Entry(kind=Pfam-A)"; any other field count yields nothing. -/
def familiesLineEntry (line : String) : Option PfamEntry :=
  match pySplitChar '\t' line with
  | [accession, ident, description] =>
    some ⟨vstr ident, vstr accession, vstr description, vstr "Pfam-A"⟩
  | _ => Option.none

/-- Modelled from the spec: the taxonomy rule as the spec words it — "split
the text on `'; '` after stripping one trailing `.`". -/
def specTaxonomyLineage (s : String) : List String :=
  let l := s.toList
  pySplitSemiSpace (String.mk (if l.getLast? = some '.' then l.dropLast else l))

/-- Modelled from the spec: alignment-name extraction applied to non-empty
lines only — "for each non-empty line, take the substring before the first
`/`". -/
def proteinsSpec (text : String) : List String :=
  ((pySplitlines text).filter (fun line => !(line == ""))).map beforeFirstSlash

/-- A protein entity node whose only child is a taxonomy element with the
given text. -/
def taxOnlyEntity (s : String) : XMLElem :=
  XMLElem.mk "entry" [] vnone vnone [XMLElem.mk "taxonomy" [] (vstr s) vnone []]

/-- The synthetic family response of the spec's test property: root carrying
`release="33.1" release_date="2022-02-01"`, entity child with a
`curation_details` child whose `num_seqs` child holds `seed` = 10 and
`full` = 20. -/
def c1Root : XMLElem :=
  .mk "pfam" [("release", vstr "33.1"), ("release_date", vstr "2022-02-01")] vnone vnone
    [.mk "entry"
        [("entry_type", vstr "Pfam-A"), ("id", vstr "FAM1"), ("accession", vstr "PF00001")]
        vnone vnone
        [.mk "curation_details" [] vnone vnone
          [.mk "num_seqs" [] vnone vnone
            [.mk "seed" [] (vstr "10") vnone [], .mk "full" [] (vstr "20") vnone []]]]]

/-- A synthetic protein response whose taxonomy text carries two trailing
dots, separating the code's `rstrip('.')` from the spec's "one trailing
dot". -/
def c5Root : XMLElem :=
  .mk "pfam" [("release", vstr "33.1"), ("release_date", vstr "2022-02-01")] vnone vnone
    [.mk "entry"
        [("entry_type", vstr "sequence"), ("id", vstr "P1"), ("accession", vstr "Q1")]
        vnone vnone
        [.mk "taxonomy" [("tax_id", vstr "562"), ("species_name", vstr "Escherichia coli")]
          (vstr "Bacteria; Firmicutes..") vnone []]]

/-- A mapped protein without matches. -/
def noMatchProtein : PfamProtein :=
  ⟨vfloat (PyFloat.finite (ratNorm 331 10)), ⟨2022, 2, 1⟩, vnone, vnone,
   [("description", vnone), ("comment", vnone)], vnone, vnone, Option.none, vnone,
   Option.none, [], ⟨vstr "P1", vstr "Q1", vnone, vstr "sequence"⟩⟩

/-- A match entry of kind `Pfam-A`, and a protein whose match list holds just
the corresponding match. -/
def pfamAMatch : PfamMatch :=
  ⟨⟨vstr "FAM1", vstr "PF00001", vnone, vstr "Pfam-A"⟩, []⟩

/-- The `noMatchProtein` with `pfamAMatch` as its single match. -/
def oneMatchProtein : PfamProtein :=
  ⟨vfloat (PyFloat.finite (ratNorm 331 10)), ⟨2022, 2, 1⟩, vnone, vnone,
   [("description", vnone), ("comment", vnone)], vnone, vnone, Option.none, vnone,
   Option.none, [pfamAMatch], ⟨vstr "P1", vstr "Q1", vnone, vstr "sequence"⟩⟩

/-- Unfolding equation for `xml_process_tree` on a constructor. -/
theorem xml_process_tree_mk (t : String) (a : List (String × PyValue)) (x tl : PyValue)
    (cs : List XMLElem) :
    xml_process_tree (XMLElem.mk t a x tl cs) =
      XMLElem.mk t (processAttrs a) (xml_process_value x) tl (cs.map xml_process_tree) := by
  rw [xml_process_tree, List.attach_map_coe]

/-- The head surviving a `dropWhile` fails the predicate. -/
theorem dropWhile_head_false (p : Char → Bool) :
    ∀ (l : List Char) (c : Char) (t : List Char), l.dropWhile p = c :: t → p c = false := by
  intro l
  induction l with
  | nil => intro c t h; cases h
  | cons a l ih =>
    intro c t h
    rw [List.dropWhile_cons] at h
    by_cases ha : p a
    · rw [if_pos ha] at h
      exact ih c t h
    · rw [if_neg ha] at h
      cases h
      exact Bool.of_not_eq_true ha

/-- `dropWhile` is idempotent. -/
theorem dropWhile_idem (p : Char → Bool) (l : List Char) :
    (l.dropWhile p).dropWhile p = l.dropWhile p := by
  cases h : l.dropWhile p with
  | nil => rfl
  | cons c t =>
    have hc := dropWhile_head_false p l c t h
    rw [List.dropWhile_cons, hc]
    simp

/-- A final element failing the predicate survives a `dropWhile` from the
left. -/
theorem dropWhile_append_singleton (p : Char → Bool) (c : Char) (hc : p c = false) :
    ∀ l : List Char, (l ++ [c]).dropWhile p = l.dropWhile p ++ [c] := by
  intro l
  induction l with
  | nil => simp [List.dropWhile_cons, hc]
  | cons a t ih =>
    by_cases ha : p a
    · simp only [List.cons_append, List.dropWhile_cons, ha, if_true, ih]
    · simp only [List.cons_append, List.dropWhile_cons, ha, if_false]
      simp [ha]

/-- Right-trimming keeps a head that fails the predicate. -/
theorem rtrim_head_cons (p : Char → Bool) (c : Char) (hc : p c = false) (t : List Char) :
    rtrimChars p (c :: t) = c :: rtrimChars p t := by
  unfold rtrimChars
  rw [show (c :: t).reverse = t.reverse ++ [c] by simp,
      dropWhile_append_singleton p c hc, List.reverse_append]
  simp

/-- Right-trimming is idempotent. -/
theorem rtrim_idem (p : Char → Bool) (l : List Char) :
    rtrimChars p (rtrimChars p l) = rtrimChars p l := by
  unfold rtrimChars
  rw [List.reverse_reverse, dropWhile_idem]

/-- Stripping both ends is idempotent. -/
theorem pyStripList_idem (l : List Char) : pyStripList (pyStripList l) = pyStripList l := by
  unfold pyStripList
  cases h : l.dropWhile isPySpace with
  | nil => rfl
  | cons c t =>
    have hc := dropWhile_head_false isPySpace l c t h
    rw [rtrim_head_cons isPySpace c hc t, List.dropWhile_cons, hc]
    simp only [Bool.false_eq_true, if_false]
    rw [← rtrim_head_cons isPySpace c hc t, rtrim_idem]

/-- `str.strip()` is idempotent. -/
theorem pyStrip_idem (s : String) : pyStrip (pyStrip s) = pyStrip s := by
  have h : (String.mk (pyStripList s.toList)).toList = pyStripList s.toList := rfl
  unfold pyStrip
  rw [h, pyStripList_idem]

/-- A string of whitespace strips to the empty string. -/
theorem pyStrip_all_space (s : String) (h : ∀ c ∈ s.toList, isPySpace c) : pyStrip s = "" := by
  show String.mk (pyStripList s.toList) = ""
  unfold pyStripList
  rw [List.dropWhile_eq_nil_iff.mpr h]
  rfl

/-- The empty string is not float-parsable. -/
theorem parseFloat_empty : parseFloat "" = Option.none := rfl

/-- Unfolding equation of the scalar normalizer on a string. -/
theorem xml_process_value_vstr (s : String) :
    xml_process_value (vstr s) =
      (if pyStrip s = "" then vnone
       else
         match parseFloat (pyStrip s) with
         | some f => vfloat f
         | none => vstr (pyStrip s)) := rfl

/-- Normalizing a string is the same as normalizing its stripped form
(the function strips first, and stripping is idempotent). -/
theorem xml_process_value_strip (s : String) :
    xml_process_value (vstr s) = xml_process_value (vstr (pyStrip s)) := by
  rw [xml_process_value_vstr s, xml_process_value_vstr (pyStrip s), pyStrip_idem]

/-- The scalar normalizer is idempotent. -/
theorem xml_process_value_idem (v : PyValue) :
    xml_process_value (xml_process_value v) = xml_process_value v := by
  cases v with
  | vnone => rfl
  | vfloat f => rfl
  | vobj n => rfl
  | vstr s =>
    rw [xml_process_value_vstr s]
    by_cases h : pyStrip s = ""
    · rw [if_pos h]
      rfl
    · rw [if_neg h]
      cases hp : parseFloat (pyStrip s) with
      | some f => rfl
      | none =>
        rw [xml_process_value_vstr (pyStrip s), pyStrip_idem, if_neg h, hp]

/-- Structural induction for `XMLElem` with the child hypothesis given
membership-wise. -/
theorem xmlInduction (motive : XMLElem → Prop)
    (h : ∀ t a x tl cs, (∀ c, c ∈ cs → motive c) → motive (XMLElem.mk t a x tl cs)) :
    ∀ e, motive e
  | XMLElem.mk t a x tl cs => h t a x tl cs (fun c hc => xmlInduction motive h c)
termination_by e => sizeOf e
decreasing_by
  have hlt := List.sizeOf_lt_of_mem hc
  simp only [XMLElem.mk.sizeOf_spec]
  omega

/-- Attribute normalization is idempotent. -/
theorem processAttrs_idem (a : List (String × PyValue)) :
    processAttrs (processAttrs a) = processAttrs a := by
  unfold processAttrs
  rw [List.map_map]
  apply List.map_congr_left
  intro pr _
  show (pr.1, xml_process_value (xml_process_value pr.2)) = (pr.1, xml_process_value pr.2)
  rw [xml_process_value_idem]

/-- The tree normalizer is idempotent. -/
theorem xml_process_tree_idem (e : XMLElem) :
    xml_process_tree (xml_process_tree e) = xml_process_tree e := by
  induction e using xmlInduction with
  | h t a x tl cs ih =>
    rw [xml_process_tree_mk, xml_process_tree_mk, processAttrs_idem, xml_process_value_idem,
        List.map_map]
    have : cs.map (xml_process_tree ∘ xml_process_tree) = cs.map xml_process_tree := by
      apply List.map_congr_left
      intro c hc
      exact ih c hc
    rw [this]

/-- The first piece of a single-character split is the longest prefix free of
the separator. -/
theorem splitCharAux_headD (sep : Char) :
    ∀ l acc : List Char,
      (splitCharAux sep acc l).headD "" =
        String.mk (acc.reverse ++ l.takeWhile (fun c => !(c == sep))) := by
  intro l
  induction l with
  | nil => intro acc; simp [splitCharAux]
  | cons c rest ih =>
    intro acc
    by_cases hc : c = sep
    · simp [splitCharAux, hc, List.takeWhile_cons]
    · simp only [splitCharAux, hc, if_false, List.takeWhile_cons]
      rw [ih (c :: acc)]
      simp [hc]

/-- `line.split(sep)[0]` is the prefix of the line before the first
separator. -/
theorem pySplitChar_headD (sep : Char) (s : String) :
    (pySplitChar sep s).headD "" = String.mk (s.toList.takeWhile (fun c => !(c == sep))) := by
  unfold pySplitChar
  rw [splitCharAux_headD sep s.toList []]
  rfl

/-- A left fold that appends one element per input is a map. -/
theorem foldl_append_map {α β : Type} (g : α → β) :
    ∀ (ls : List α) (acc : List β),
      ls.foldl (fun out l => out ++ [g l]) acc = acc ++ ls.map g := by
  intro ls
  induction ls with
  | nil => intro acc; simp
  | cons l ls ih =>
    intro acc
    rw [List.foldl_cons, ih]
    simp

/-- A left fold that appends the content of an optional element per input is
a `filterMap`. -/
theorem foldl_append_optList {α β : Type} (f : α → Option β) :
    ∀ (ls : List α) (acc : List β),
      ls.foldl (fun out l => out ++ (f l).toList) acc = acc ++ ls.filterMap f := by
  intro ls
  induction ls with
  | nil => intro acc; simp
  | cons l ls ih =>
    intro acc
    rw [List.foldl_cons, ih, List.filterMap_cons]
    cases f l <;> simp

/-- The fold step of `families` agrees with appending the optional entry of
the line. -/
theorem familiesStep (output : List PfamEntry) (l : String) :
    (match pySplitChar '\t' l with
      | [f0, f1, f2] => output ++ [(⟨vstr f1, vstr f0, vstr f2, vstr "Pfam-A"⟩ : PfamEntry)]
      | _ => output) = output ++ (familiesLineEntry l).toList := by
  unfold familiesLineEntry
  cases pySplitChar '\t' l with
  | nil => simp
  | cons f0 t =>
    cases t with
    | nil => simp
    | cons f1 t2 =>
      cases t2 with
      | nil => simp
      | cons f2 t3 =>
        cases t3 with
        | nil => simp
        | cons f3 t4 => simp

/-- `families` keeps exactly the three-field lines, in order. -/
theorem families_eq_filterMap (text : String) :
    families text = (pySplitlines text).filterMap familiesLineEntry := by
  unfold families
  simp only [familiesStep]
  rw [foldl_append_optList familiesLineEntry (pySplitlines text) []]
  rfl

/-- `proteins` maps every line (empty lines included) to its part before the
first slash. -/
theorem proteins_eq_map (text : String) :
    proteins text = (pySplitlines text).map beforeFirstSlash := by
  unfold proteins
  have hstep : ∀ (out : List String) (line : String),
      out ++ [(pySplitChar '/' line).headD ""] = out ++ [beforeFirstSlash line] := by
    intro out line
    rw [pySplitChar_headD]
    rfl
  simp only [hstep]
  rw [foldl_append_map beforeFirstSlash (pySplitlines text) []]
  rfl

/-- A key absent from the left part of an appended association list is looked
up in the right part. -/
theorem lookup_append_none {β : Type} (k : String) :
    ∀ d e : List (String × β), d.lookup k = Option.none → (d ++ e).lookup k = e.lookup k := by
  intro d
  induction d with
  | nil => intro e _; rfl
  | cons a d ih =>
    intro e h
    rw [List.cons_append]
    simp only [List.lookup] at h ⊢
    cases hk : (k == a.1) with
    | true => rw [hk] at h; exact Option.noConfusion h
    | false => rw [hk] at h; exact ih e h

/-- A key found on the left of an appended association list keeps its
value. -/
theorem lookup_append_some {β : Type} (k : String) :
    ∀ (d e : List (String × β)) (v : β), d.lookup k = some v → (d ++ e).lookup k = some v := by
  intro d
  induction d with
  | nil => intro e v h; cases h
  | cons a d ih =>
    intro e v h
    rw [List.cons_append]
    simp only [List.lookup] at h ⊢
    cases hk : (k == a.1) with
    | true => rw [hk] at h; exact h
    | false => rw [hk] at h; exact ih e v h

/-- `setdefault` leaves a dictionary that already has the key unchanged, and
a second application never changes anything. -/
theorem requestParams_idem (d : PyDict) : requestParams (requestParams d) = requestParams d := by
  unfold requestParams
  by_cases h : (dictGet d "output").isSome = true
  · rw [if_pos h, if_pos h]
  · rw [if_neg h]
    have hnone : dictGet d "output" = Option.none := by
      cases hd : dictGet d "output" with
      | none => rfl
      | some v => rw [hd] at h; exact absurd rfl h
    have h2 : (dictGet (d ++ [("output", vstr "xml")]) "output").isSome = true := by
      show ((d ++ [("output", vstr "xml")]).lookup "output").isSome = true
      rw [lookup_append_none "output" d _ hnone]
      rfl
    rw [if_pos h2]

/-- The full evaluation of `family` on the synthetic C1 response. -/
theorem family_c1Root_eval :
    family 200 c1Root =
      Except.ok
        ⟨vfloat (PyFloat.finite (ratNorm 331 10)), ⟨2022, 2, 1⟩,
         [("description", vnone), ("comment", vnone)],
         some ⟨curationInitAttrs, some (vfloat (PyFloat.finite (ratNorm 10 1))),
               some (vfloat (PyFloat.finite (ratNorm 20 1)))⟩,
         Option.none, Option.none, Option.none,
         ⟨vstr "FAM1", vstr "PF00001", vnone, vstr "Pfam-A"⟩⟩ := by
  have hnorm : xml_process_tree c1Root =
      XMLElem.mk "pfam"
        [("release", vfloat (PyFloat.finite (ratNorm 331 10))),
         ("release_date", vstr "2022-02-01")] vnone vnone
        [.mk "entry"
            [("entry_type", vstr "Pfam-A"), ("id", vstr "FAM1"), ("accession", vstr "PF00001")]
            vnone vnone
            [.mk "curation_details" [] vnone vnone
              [.mk "num_seqs" [] vnone vnone
                [.mk "seed" [] (vfloat (PyFloat.finite (ratNorm 10 1))) vnone [],
                 .mk "full" [] (vfloat (PyFloat.finite (ratNorm 20 1))) vnone []]]]] := by
    simp only [c1Root, xml_process_tree_mk, List.map_cons, List.map_nil]
    rfl
  unfold family request_xml
  rw [if_neg (by decide), if_neg (by decide), hnorm]
  rfl

/-- The full evaluation of `protein` on the synthetic C5 response. -/
theorem protein_c5Root_eval :
    protein 200 c5Root =
      Except.ok
        ⟨vfloat (PyFloat.finite (ratNorm 331 10)), ⟨2022, 2, 1⟩, vnone, vnone,
         [("description", vnone), ("comment", vnone)],
         vfloat (PyFloat.finite (ratNorm 562 1)), vstr "Escherichia coli",
         some ["Bacteria", "Firmicutes"], vnone, Option.none, [],
         ⟨vstr "P1", vstr "Q1", vnone, vstr "sequence"⟩⟩ := by
  have hnorm : xml_process_tree c5Root =
      XMLElem.mk "pfam"
        [("release", vfloat (PyFloat.finite (ratNorm 331 10))),
         ("release_date", vstr "2022-02-01")] vnone vnone
        [.mk "entry"
            [("entry_type", vstr "sequence"), ("id", vstr "P1"), ("accession", vstr "Q1")]
            vnone vnone
            [.mk "taxonomy"
                [("tax_id", vfloat (PyFloat.finite (ratNorm 562 1))),
                 ("species_name", vstr "Escherichia coli")]
                (vstr "Bacteria; Firmicutes..") vnone []]] := by
    simp only [c5Root, xml_process_tree_mk, List.map_cons, List.map_nil]
    rfl
  unfold protein request_xml
  rw [if_neg (by decide), if_neg (by decide), hnorm]
  rfl

/-- Claim C1, counterexample: on the synthetic family response with
`release="33.1"`, the mapped family does NOT expose
`pfam_release_version == "33.1"` as a string — the tree normalizer converts
the root's `release` attribute to the float 33.1 before `family` reads it, so
the claim's third conjunct is false at this input. -/
theorem claim_C1_counterexample :
    (family 200 c1Root).map (fun f => f.pfam_release_version) =
        Except.ok (vfloat (PyFloat.finite (ratNorm 331 10))) ∧
    (family 200 c1Root).map (fun f => f.pfam_release_version) ≠ Except.ok (vstr "33.1") := by
  have h : (family 200 c1Root).map (fun f => f.pfam_release_version) =
      Except.ok (vfloat (PyFloat.finite (ratNorm 331 10))) := by
    rw [family_c1Root_eval]
    rfl
  refine ⟨h, ?_⟩
  rw [h]
  intro hcontra
  exact PyValue.noConfusion (Except.ok.inj hcontra)

/-- Claim C1, amended: for the synthetic family response whose root carries
`release="33.1"` and `release_date="2022-02-01"` and whose entity node has a
`curation_details` child with a `num_seqs` child containing seed 10 and full
20, the mapped family exposes `num_seqs_seed == 10.0` and
`num_seqs_full == 20.0` as floats, and `pfam_release_version == 33.1` as a
float — the release attribute value after tree normalization, not the raw
string. -/
theorem claim_C1 :
    (family 200 c1Root).map
        (fun f => (f.curation_details.map (fun cd => (cd.num_seqs_seed, cd.num_seqs_full)),
                   f.pfam_release_version)) =
      Except.ok
        (some (some (vfloat (PyFloat.finite (ratNorm 10 1))),
               some (vfloat (PyFloat.finite (ratNorm 20 1)))),
         vfloat (PyFloat.finite (ratNorm 331 10))) := by
  rw [family_c1Root_eval]
  rfl

/-- Claim C2: the scalar normalizer is total (a Lean function) and: `None`
maps to `None`; non-strings pass through unchanged; an all-whitespace or
empty string maps to `None`; normalizing a string equals normalizing its
stripped form; a string whose stripped form is float-parsable maps to that
float; any other string maps to its stripped form. -/
theorem claim_C2 :
    xml_process_value vnone = vnone ∧
    (∀ n : Nat, xml_process_value (vobj n) = vobj n) ∧
    (∀ f : PyFloat, xml_process_value (vfloat f) = vfloat f) ∧
    (∀ s : String, (∀ c ∈ s.toList, isPySpace c) → xml_process_value (vstr s) = vnone) ∧
    (∀ s : String, xml_process_value (vstr s) = xml_process_value (vstr (pyStrip s))) ∧
    (∀ (s : String) (f : PyFloat), parseFloat (pyStrip s) = some f →
      xml_process_value (vstr s) = vfloat f) ∧
    (∀ s : String, pyStrip s ≠ "" → parseFloat (pyStrip s) = Option.none →
      xml_process_value (vstr s) = vstr (pyStrip s)) := by
  refine ⟨rfl, fun n => rfl, fun f => rfl, ?_, xml_process_value_strip, ?_, ?_⟩
  · intro s h
    rw [xml_process_value_vstr s, if_pos (pyStrip_all_space s h)]
  · intro s f hf
    have hne : pyStrip s ≠ "" := by
      intro he
      rw [he, parseFloat_empty] at hf
      exact Option.noConfusion hf
    rw [xml_process_value_vstr s, if_neg hne, hf]
  · intro s hne hnf
    rw [xml_process_value_vstr s, if_neg hne, hnf]

/-- Witness for C2 at concrete inputs: a whitespace string normalizes to
`None`, a padded numeric string to its float, a padded word to the stripped
word. -/
theorem claim_C2_witness :
    xml_process_value (vstr " \t ") = vnone ∧
    xml_process_value (vstr " 33.1 ") = vfloat (PyFloat.finite (ratNorm 331 10)) ∧
    xml_process_value (vstr " Pfam-A ") = vstr "Pfam-A" :=
  ⟨claim_C2.2.2.2.1 " \t " (by decide),
   claim_C2.2.2.2.2.2.1 " 33.1 " (PyFloat.finite (ratNorm 331 10)) (by decide),
   claim_C2.2.2.2.2.2.2 " Pfam-A " (by decide) (by decide)⟩

/-- Claim C3: a 2xx response whose parsed root is tagged `error` makes
`request` (and therefore `family`) fail with the remote error carrying the
element's raw text — raised before the tree normalizer runs, so the message
is the unnormalized text. -/
theorem claim_C3 (status : Nat) (root : XMLElem)
    (hlow : 200 ≤ status) (hhigh : status ≤ 299) (herr : root.tag = "error") :
    request_xml status root = Except.error (PyErr.remoteError root.text) ∧
    family status root = Except.error (PyErr.remoteError root.text) := by
  have hreq : request_xml status root = Except.error (PyErr.remoteError root.text) := by
    unfold request_xml
    rw [if_neg (by omega), if_pos herr]
  refine ⟨hreq, ?_⟩
  unfold family
  rw [hreq]
  rfl

/-- Witness for C3: an `<error>` document with text `" oops "` under HTTP
200 — the failure carries the raw text, whitespace intact, showing that no
normalization of the error document happened. -/
theorem claim_C3_witness :
    200 ≤ 200 ∧ (200 : Nat) ≤ 299 ∧
    (XMLElem.mk "error" [] (vstr " oops ") vnone []).tag = "error" ∧
    request_xml 200 (XMLElem.mk "error" [] (vstr " oops ") vnone []) =
      Except.error (PyErr.remoteError (vstr " oops ")) ∧
    family 200 (XMLElem.mk "error" [] (vstr " oops ") vnone []) =
      Except.error (PyErr.remoteError (vstr " oops ")) := by
  refine ⟨by decide, by decide, rfl, ?_, ?_⟩
  · exact (claim_C3 200 (XMLElem.mk "error" [] (vstr " oops ") vnone [])
      (by decide) (by decide) rfl).1
  · exact (claim_C3 200 (XMLElem.mk "error" [] (vstr " oops ") vnone [])
      (by decide) (by decide) rfl).2

/-- Claim C4: tree normalization is idempotent — applying `xml_process_tree`
twice yields the same tree as applying it once, for every XML tree. -/
theorem claim_C4 (t : XMLElem) :
    xml_process_tree (xml_process_tree t) = xml_process_tree t :=
  xml_process_tree_idem t

/-- Claim C5, counterexample: the code strips ALL trailing dots
(`rstrip('.')`), not one; on taxonomy text `"Bacteria; Firmicutes.."` the
mapped lineage is `["Bacteria", "Firmicutes"]`, while the claim's
one-trailing-dot procedure yields `["Bacteria", "Firmicutes."]`. -/
theorem claim_C5_counterexample :
    (protein 200 c5Root).map (fun p => p.taxonomy) =
        Except.ok (some ["Bacteria", "Firmicutes"]) ∧
    specTaxonomyLineage "Bacteria; Firmicutes.." = ["Bacteria", "Firmicutes."] ∧
    (protein 200 c5Root).map (fun p => p.taxonomy) ≠
      Except.ok (some (specTaxonomyLineage "Bacteria; Firmicutes..")) := by
  have h : (protein 200 c5Root).map (fun p => p.taxonomy) =
      Except.ok (some ["Bacteria", "Firmicutes"]) := by
    rw [protein_c5Root_eval]
    rfl
  refine ⟨h, rfl, ?_⟩
  rw [h]
  intro hcontra
  have hlist := Option.some.inj (Except.ok.inj hcontra)
  exact absurd hlist (by decide)

/-- Claim C5, amended: the mapped taxonomy lineage is the element's text
with ALL trailing `'.'` stripped, then split on `"; "`; in particular
`"Bacteria; Firmicutes."` maps to exactly `["Bacteria", "Firmicutes"]`. -/
theorem claim_C5 (s : String) (rv : PyValue) (rd : PyDate) :
    (mkPfamProtein rv rd (taxOnlyEntity s)).map (fun p => p.taxonomy) =
        Except.ok (some (taxonomyLineage s)) ∧
    taxonomyLineage "Bacteria; Firmicutes." = ["Bacteria", "Firmicutes"] :=
  ⟨rfl, rfl⟩

/-- Claim C6, counterexample: `proteins` produces one entry per line of the
body including EMPTY lines (an empty line yields the empty name), while the
claim says empty lines produce no entries. -/
theorem claim_C6_counterexample :
    proteins "A/1-2\n\nB/3-4" = ["A", "", "B"] ∧
    proteinsSpec "A/1-2\n\nB/3-4" = ["A", "B"] ∧
    proteins "A/1-2\n\nB/3-4" ≠ proteinsSpec "A/1-2\n\nB/3-4" :=
  ⟨rfl, rfl, by decide⟩

/-- Claim C6, amended: `proteins` returns, for EVERY line of the alignment
body (empty lines included), the substring of that line before the first
`'/'`; an empty line contributes an empty-string entry. -/
theorem claim_C6 :
    (∀ text : String, proteins text = (pySplitlines text).map beforeFirstSlash) ∧
    proteins "A/1-2\nB/3-4\n" = ["A", "B"] :=
  ⟨proteins_eq_map, rfl⟩

/-- Claim C7: `families` parses each line by splitting on tabs; exactly the
three-field lines yield `Pfam-A` entries with accession, id and description
taken from fields 1, 2 and 3, other lines are skipped; and the given
one-line body yields exactly the claimed entry. -/
theorem claim_C7 :
    (∀ text : String, families text = (pySplitlines text).filterMap familiesLineEntry) ∧
    families "PF00001\tFAMILY1\tsome description\n" =
      [⟨vstr "FAMILY1", vstr "PF00001", vstr "some description", vstr "Pfam-A"⟩] :=
  ⟨families_eq_filterMap, rfl⟩

/-- Claim C8: a protein with no matches yields nothing from `fetch_family`
(no fetch action, hence no network call, and no exception since the function
is total); a protein with at least one match delegates to its first match. -/
theorem claim_C8 (p : PfamProtein) :
    (p.«matches» = [] → p.fetch_family = Option.none) ∧
    (∀ (m : PfamMatch) (ms : List PfamMatch), p.«matches» = m :: ms →
      p.fetch_family = m.fetch_family) := by
  constructor
  · intro h
    unfold PfamProtein.fetch_family
    rw [h]
  · intro m ms h
    unfold PfamProtein.fetch_family
    rw [h]

/-- Witness for C8: the no-match protein fetches nothing; the one-match
protein delegates to its `Pfam-A` match, which would fetch that family. -/
theorem claim_C8_witness :
    noMatchProtein.«matches» = [] ∧ noMatchProtein.fetch_family = Option.none ∧
    oneMatchProtein.«matches» = [pfamAMatch] ∧
    oneMatchProtein.fetch_family = pfamAMatch.fetch_family :=
  ⟨rfl, (claim_C8 noMatchProtein).1 rfl, rfl,
   (claim_C8 oneMatchProtein).2 pfamAMatch [] rfl⟩

/-- Claim C9: `Entry.fetch` returns `None` without issuing any request for
every kind tag other than `Pfam-A`, `Clan` and `sequence`; the three
recognized kinds dispatch to the family, clan and protein fetches on the
entry's accession. -/
theorem claim_C9 (e : PfamEntry) :
    (e.type ≠ vstr "Pfam-A" → e.type ≠ vstr "Clan" → e.type ≠ vstr "sequence" →
      e.fetch = Option.none) ∧
    (e.type = vstr "Pfam-A" → e.fetch = some (FetchAction.fetchFamily e.accession)) ∧
    (e.type = vstr "Clan" → e.fetch = some (FetchAction.fetchClan e.accession)) ∧
    (e.type = vstr "sequence" → e.fetch = some (FetchAction.fetchProtein e.accession)) := by
  refine ⟨?_, ?_, ?_, ?_⟩
  · intro h1 h2 h3
    unfold PfamEntry.fetch
    rw [if_neg h1, if_neg h2, if_neg h3]
  · intro h1
    unfold PfamEntry.fetch
    rw [if_pos h1]
  · intro h2
    have h1 : e.type ≠ vstr "Pfam-A" := by rw [h2]; decide
    unfold PfamEntry.fetch
    rw [if_neg h1, if_pos h2]
  · intro h3
    have h1 : e.type ≠ vstr "Pfam-A" := by rw [h3]; decide
    have h2 : e.type ≠ vstr "Clan" := by rw [h3]; decide
    unfold PfamEntry.fetch
    rw [if_neg h1, if_neg h2, if_pos h3]

/-- Witness for C9: an entry with the unrecognized kind `Motif` fetches
nothing; a `Clan` entry fetches its clan. -/
theorem claim_C9_witness :
    (PfamEntry.mk (vstr "X") (vstr "PF1") vnone (vstr "Motif")).fetch = Option.none ∧
    (PfamEntry.mk (vstr "CL1") (vstr "CL0001") vnone (vstr "Clan")).fetch =
      some (FetchAction.fetchClan (vstr "CL0001")) :=
  ⟨(claim_C9 (PfamEntry.mk (vstr "X") (vstr "PF1") vnone (vstr "Motif"))).1
      (by decide) (by decide) (by decide),
   (claim_C9 (PfamEntry.mk (vstr "CL1") (vstr "CL0001") vnone (vstr "Clan"))).2.2.1 rfl⟩

/-- Claim C10: `request` mutates its params dictionary — when `output` is
absent it is inserted mapping to `xml` while every existing binding is kept;
the module-level default dictionary (evaluated once, shared by all calls made
without a params argument, modelled by explicit state passing) holds
`output -> xml` after the first call and is never changed again. -/
theorem claim_C10 :
    (∀ d : PyDict, dictGet d "output" = Option.none →
      dictGet (requestParams d) "output" = some (vstr "xml") ∧
      (∀ (k : String) (v : PyValue), dictGet d k = some v →
        dictGet (requestParams d) k = some v)) ∧
    requestParams requestDefaultParams = [("output", vstr "xml")] ∧
    (∀ d : PyDict, requestParams (requestParams d) = requestParams d) := by
  refine ⟨?_, rfl, requestParams_idem⟩
  intro d hnone
  have hform : requestParams d = d ++ [("output", vstr "xml")] := by
    unfold requestParams
    rw [if_neg (by rw [hnone]; exact Bool.false_ne_true)]
  constructor
  · rw [hform]
    show (d ++ [("output", vstr "xml")]).lookup "output" = some (vstr "xml")
    rw [lookup_append_none "output" d _ hnone]
    rfl
  · intro k v hkv
    rw [hform]
    exact lookup_append_some k d _ v hkv

/-- Witness for C10: a dictionary holding only `format -> pfam` gains
`output -> xml` and keeps its `format` binding. -/
theorem claim_C10_witness :
    dictGet [("format", vstr "pfam")] "output" = Option.none ∧
    dictGet (requestParams [("format", vstr "pfam")]) "output" = some (vstr "xml") ∧
    dictGet (requestParams [("format", vstr "pfam")]) "format" = some (vstr "pfam") :=
  ⟨rfl, (claim_C10.1 [("format", vstr "pfam")] rfl).1,
   (claim_C10.1 [("format", vstr "pfam")] rfl).2 "format" (vstr "pfam") rfl⟩
